import Mathlib

/-!
Verification of the shairport metadata server
(`shairport-metadata-server/server.py`).

The server keeps one global mutable record `metadata` (the playback
state), mutated by the MQTT callback `on_message` and read by the
HTTP route `get_metadata`.  We embed the state record, the byte-level
payload decoding (UTF-8, base64, the `float` constructor), the
message handler, and the JSON serialization of the `/metadata` route,
and prove the specified properties about them.

Payload bytes are modelled as `List Nat` with values below 256.
-/

namespace Shairport

/-! ## Python `float(string)` -/

/-- Result of Python `float(s)`: a finite value (modelled exactly as a
rational), an infinity, or a NaN. -/
inductive PyFloat where
  | num (q : ℚ)
  | inf
  | negInf
  | nan
deriving DecidableEq, Repr

/-- Whitespace stripped by Python `float(s)` (ASCII subset). -/
def isPyWs (c : Char) : Bool :=
  c = ' ' || c = '\t' || c = '\n' || c = '\r' || c = '\x0b' || c = '\x0c'

/-- Parse a digit run `[0-9](_?[0-9])*` (Python permits single
underscores between digits).  Returns the value, the number of digits,
and the remaining input; `none` if the input does not start with a
digit. -/
def parseDigits : List Char → Option (Nat × Nat × List Char)
  | [] => none
  | c :: cs =>
    if c.isDigit then
      let rec go (acc k : Nat) : List Char → Nat × Nat × List Char
        | [] => (acc, k, [])
        | d :: ds =>
          if d.isDigit then go (acc * 10 + (d.toNat - 48)) (k + 1) ds
          else if d = '_' then
            match ds with
            | e :: es => if e.isDigit then go (acc * 10 + (e.toNat - 48)) (k + 1) es
                         else (acc, k, d :: ds)
            | [] => (acc, k, d :: ds)
          else (acc, k, d :: ds)
      some (go (c.toNat - 48) 1 cs)
    else none

/-- Case-insensitively strip the literal `pat` from the front of `cs`. -/
def stripCI : List Char → List Char → Option (List Char)
  | [], cs => some cs
  | _ :: _, [] => none
  | p :: ps, c :: cs => if c.toLower = p then stripCI ps cs else none

/-- Parse the numeric body `digits [. digits] [exp] | . digits [exp]`
with `exp = (e|E) [sign] digits`, returning the rational value. -/
def parseNumBody (cs : List Char) : Option (ℚ × List Char) :=
  let intPart := parseDigits cs
  let (ip, ik, rest) := match intPart with
    | some (v, k, r) => (v, k, r)
    | none => (0, 0, cs)
  let (fp, fk, rest2) := match rest with
    | '.' :: cs2 =>
      match parseDigits cs2 with
      | some (v, k, r) => (v, k, r)
      | none => (0, 0, cs2)
    | _ => (0, 0, rest)
  let hadDot : Bool := match rest with | '.' :: _ => true | _ => false
  if ik = 0 && fk = 0 then none
  else if ik = 0 && hadDot = false then none
  else
    let mant : ℚ := (ip : ℚ) + (fp : ℚ) / (10 : ℚ) ^ fk
    match rest2 with
    | 'e' :: cs3 | 'E' :: cs3 =>
      let (eneg, cs4) : Bool × List Char := match cs3 with
        | '-' :: t => (true, t)
        | '+' :: t => (false, t)
        | t => (false, t)
      match parseDigits cs4 with
      | some (ev, _, r) =>
        some (mant * (10 : ℚ) ^ (if eneg then -(ev : ℤ) else (ev : ℤ)), r)
      | none => none
    | _ => some (mant, rest2)

/-- Python `float(s)`: optional whitespace, optional sign, then
`inf`, `infinity`, `nan` (case-insensitive), or a decimal literal,
then optional whitespace.  `none` models a raised `ValueError`. -/
def pyFloat (s : String) : Option PyFloat :=
  let cs := s.data.dropWhile isPyWs
  let (neg, cs1) : Bool × List Char := match cs with
    | '-' :: t => (true, t)
    | '+' :: t => (false, t)
    | t => (false, t)
  let done (rest : List Char) (v : PyFloat) : Option PyFloat :=
    if (rest.dropWhile isPyWs).isEmpty then some v else none
  match stripCI "infinity".data cs1 with
  | some rest => done rest (if neg then PyFloat.negInf else PyFloat.inf)
  | none =>
    match stripCI "inf".data cs1 with
    | some rest => done rest (if neg then PyFloat.negInf else PyFloat.inf)
    | none =>
      match stripCI "nan".data cs1 with
      | some rest => done rest PyFloat.nan
      | none =>
        match parseNumBody cs1 with
        | some (q, rest) => done rest (PyFloat.num (if neg then -q else q))
        | none => none

/-! ## UTF-8 decoding (`bytes.decode("utf-8")`, strict) -/

/-- Continuation byte test `0x80 <= b < 0xC0`. -/
def isCont (b : Nat) : Bool := 0x80 ≤ b && b < 0xC0

/-- Decode a byte list to the list of Unicode code points, rejecting
truncated sequences, stray continuation bytes, overlong encodings,
surrogates and values above `0x10FFFF`, as CPython strict mode does.
`none` models a raised `UnicodeDecodeError`. -/
def utf8Points : List Nat → Option (List Nat)
  | [] => some []
  | b :: rest =>
    if b < 0x80 then
      (utf8Points rest).map (b :: ·)
    else if b < 0xC2 then
      none
    else if b < 0xE0 then
      match rest with
      | b2 :: rest2 =>
        if isCont b2 then
          (utf8Points rest2).map (((b - 0xC0) * 0x40 + (b2 - 0x80)) :: ·)
        else none
      | [] => none
    else if b < 0xF0 then
      match rest with
      | b2 :: b3 :: rest3 =>
        let lo2 := if b = 0xE0 then 0xA0 else 0x80
        let hi2 := if b = 0xED then 0xA0 else 0xC0
        if (lo2 ≤ b2 && b2 < hi2) && isCont b3 then
          (utf8Points rest3).map
            (((b - 0xE0) * 0x1000 + (b2 - 0x80) * 0x40 + (b3 - 0x80)) :: ·)
        else none
      | _ => none
    else if b < 0xF5 then
      match rest with
      | b2 :: b3 :: b4 :: rest4 =>
        let lo2 := if b = 0xF0 then 0x90 else 0x80
        let hi2 := if b = 0xF4 then 0x90 else 0xC0
        if ((lo2 ≤ b2 && b2 < hi2) && isCont b3) && isCont b4 then
          (utf8Points rest4).map
            (((b - 0xF0) * 0x40000 + (b2 - 0x80) * 0x1000
              + (b3 - 0x80) * 0x40 + (b4 - 0x80)) :: ·)
        else none
      | _ => none
    else none

/-- `payload.decode("utf-8")` on a byte list. -/
def utf8Decode (bs : List Nat) : Option String :=
  (utf8Points bs).map (fun ps => String.mk (ps.map Char.ofNat))

/-! ## Base64 (`base64.b64encode`) -/

/-- The standard base64 alphabet. -/
def b64Alphabet : List Char :=
  "ABCDEFGHIJKLMNOPQRSTUVWXYZabcdefghijklmnopqrstuvwxyz0123456789+/".data

/-- Sextet to character. -/
def b64Char (n : Nat) : Char := b64Alphabet.getD n 'A'

/-- Character back to sextet. -/
def b64Val (c : Char) : Option Nat :=
  if 'A' ≤ c && c ≤ 'Z' then some (c.toNat - 65)
  else if 'a' ≤ c && c ≤ 'z' then some (c.toNat - 71)
  else if '0' ≤ c && c ≤ '9' then some (c.toNat + 4)
  else if c = '+' then some 62
  else if c = '/' then some 63
  else none

/-- RFC 4648 base64 encoding of a byte list, with padding, as
`base64.b64encode` produces. -/
def b64encodeCore : List Nat → List Char
  | b1 :: b2 :: b3 :: rest =>
    let n := b1 * 0x10000 + b2 * 0x100 + b3
    b64Char (n / 0x40000) :: b64Char (n / 0x1000 % 64)
      :: b64Char (n / 64 % 64) :: b64Char (n % 64) :: b64encodeCore rest
  | [b1, b2] =>
    let n := (b1 * 0x100 + b2) * 4
    [b64Char (n / 0x1000), b64Char (n / 64 % 64), b64Char (n % 64), '=']
  | [b1] =>
    let n := b1 * 16
    [b64Char (n / 64), b64Char (n % 64), '=', '=']
  | [] => []

/-- `base64.b64encode(payload).decode("utf-8")`: the encoding is pure
ASCII, so the decode step always succeeds and we return the string
directly. -/
def b64encode (bs : List Nat) : String := String.mk (b64encodeCore bs)

/-- Strict base64 decoding back to bytes: groups of four characters,
padding only in the final group (a padded group elsewhere fails since
`=` is outside the alphabet). -/
def b64decodeCore : List Char → Option (List Nat)
  | [] => some []
  | c1 :: c2 :: c3 :: c4 :: rest =>
    if rest = [] ∧ c4 = '=' then
      if c3 = '=' then do
        let d1 ← b64Val c1
        let d2 ← b64Val c2
        pure [d1 * 4 + d2 / 16]
      else do
        let d1 ← b64Val c1
        let d2 ← b64Val c2
        let d3 ← b64Val c3
        pure [d1 * 4 + d2 / 16, d2 % 16 * 16 + d3 / 4]
    else do
      let d1 ← b64Val c1
      let d2 ← b64Val c2
      let d3 ← b64Val c3
      let d4 ← b64Val c4
      let n := d1 * 0x40000 + d2 * 0x1000 + d3 * 64 + d4
      let tl ← b64decodeCore rest
      pure (n / 0x10000 :: n / 0x100 % 0x100 :: n % 0x100 :: tl)
  | _ => none

/-- `base64.b64decode` on a string. -/
def b64decode (s : String) : Option (List Nat) := b64decodeCore s.data

/-! ## The state record -/

/-- The global `metadata` dict of `server.py`, as a typed record.
Field names and defaults follow the source initialiser. -/
structure Metadata where
  title : String
  artist : String
  album : String
  genre : String
  artwork_base64 : Option String
  is_playing : Bool
  player_state : String
  volume : PyFloat
  client_name : String
deriving DecidableEq, Repr

/-- The initial value of `metadata` (lines 28-38 of the source). -/
def metadataInit : Metadata :=
  { title := ""
    artist := ""
    album := ""
    genre := ""
    artwork_base64 := none
    is_playing := false
    player_state := "stopped"
    volume := PyFloat.num 0
    client_name := "" }

/-! ## The event handler `on_message` -/

/-- A raw MQTT message: topic string and byte payload. -/
structure Msg where
  topic : String
  payload : List Nat
deriving DecidableEq, Repr

/-- Line 66 of the source:
`topic[len(topic_prefix) + 1:] if topic.startswith(topic_prefix) else topic`.
Python slicing is by characters, so we drop characters of the
underlying list. -/
def relativeTopic (pfx topic : String) : String :=
  if pfx.data.isPrefixOf topic.data then
    String.mk (topic.data.drop (pfx.data.length + 1))
  else topic

/-- The branches of the `if`/`elif` chain of `on_message`
(lines 70-135), one constructor per branch plus `ignore` for the
fall-through. -/
inductive Action where
  | setArtist
  | setTitle
  | setAlbum
  | setGenre
  | setCover
  | playStart
  | playEnd
  | pause
  | setVolume
  | setClientName
  | activeStart
  | activeEnd
  | ignore
deriving DecidableEq, Repr

/-- The `if`/`elif` chain of `on_message`, condition for condition in
source order (an unrecognized relative topic falls through every
branch and is ignored). -/
def classify (rel : String) : Action :=
  if rel = "artist" then .setArtist
  else if rel = "title" then .setTitle
  else if rel = "album" then .setAlbum
  else if rel = "genre" then .setGenre
  else if rel = "cover" ∨ rel = "artwork" then .setCover
  else if rel = "play_start" ∨ rel = "play_resume" then .playStart
  else if rel = "play_end" ∨ rel = "play_flush" then .playEnd
  else if rel = "pause" then .pause
  else if rel = "volume" then .setVolume
  else if rel = "client_name" then .setClientName
  else if rel = "active_start" then .activeStart
  else if rel = "active_end" then .activeEnd
  else .ignore

/-- The state transition performed by `on_message` (lines 58-138).
Decoding failures raise inside the handler and are caught by the
`try`/`except` wrapping the whole branch chain; since each branch
performs its single fallible decode before any assignment, a failure
leaves the state unchanged, which the `Option` matches reflect.  The
`volume` branch has its own inner `except ValueError` (both a
`UnicodeDecodeError` and a float parse failure are `ValueError`s). -/
def onMessage (pfx : String) (s : Metadata) (m : Msg) : Metadata :=
  match classify (relativeTopic pfx m.topic) with
  | .setArtist =>
    match utf8Decode m.payload with
    | some v => { s with artist := v }
    | none => s
  | .setTitle =>
    match utf8Decode m.payload with
    | some v => { s with title := v }
    | none => s
  | .setAlbum =>
    match utf8Decode m.payload with
    | some v => { s with album := v }
    | none => s
  | .setGenre =>
    match utf8Decode m.payload with
    | some v => { s with genre := v }
    | none => s
  | .setCover =>
    if m.payload ≠ [] then
      { s with artwork_base64 := some (b64encode m.payload) }
    else
      { s with artwork_base64 := none }
  | .playStart =>
    { s with is_playing := true, player_state := "playing" }
  | .playEnd =>
    { s with is_playing := false, player_state := "stopped",
             title := "", artist := "", album := "", artwork_base64 := none }
  | .pause =>
    { s with is_playing := false, player_state := "paused" }
  | .setVolume =>
    match utf8Decode m.payload with
    | some t =>
      match pyFloat t with
      | some v => { s with volume := v }
      | none => s
    | none => s
  | .setClientName =>
    match utf8Decode m.payload with
    | some v => { s with client_name := v }
    | none => s
  | .activeStart => s
  | .activeEnd =>
    { s with is_playing := false, player_state := "stopped",
             title := "", artist := "", album := "", artwork_base64 := none }
  | .ignore => s

/-- Fold a message sequence through the handler. -/
def runMsgs (pfx : String) (msgs : List Msg) (s : Metadata) : Metadata :=
  msgs.foldl (onMessage pfx) s

/-- A state is reachable when some message sequence (under some topic
prefix) produces it from the initial state. -/
def Reachable (s : Metadata) : Prop :=
  ∃ pfx msgs, s = runMsgs pfx msgs metadataInit

/-! ## Field-level write sequences

`on_message` mutates the shared dict through a sequence of single-key
assignments, one Python statement each.  The source takes no lock
around them (the comment on line 27 relies on the GIL, which only
makes each single assignment atomic), so the HTTP thread can read the
dict between two assignments of the same branch.  We model each
branch as its list of field writes, in source order, and each
schedule point as the state after a prefix of that list. -/

/-- One single-key assignment to the `metadata` dict. -/
inductive FieldWrite where
  | wTitle (v : String)
  | wArtist (v : String)
  | wAlbum (v : String)
  | wGenre (v : String)
  | wArtwork (v : Option String)
  | wIsPlaying (v : Bool)
  | wPlayerState (v : String)
  | wVolume (v : PyFloat)
  | wClientName (v : String)
deriving DecidableEq, Repr

/-- Apply one assignment. -/
def applyWrite (s : Metadata) : FieldWrite → Metadata
  | .wTitle v => { s with title := v }
  | .wArtist v => { s with artist := v }
  | .wAlbum v => { s with album := v }
  | .wGenre v => { s with genre := v }
  | .wArtwork v => { s with artwork_base64 := v }
  | .wIsPlaying v => { s with is_playing := v }
  | .wPlayerState v => { s with player_state := v }
  | .wVolume v => { s with volume := v }
  | .wClientName v => { s with client_name := v }

/-- The assignments one `on_message` call performs, in the order the
source executes them (for `play_end`, lines 101-107: `is_playing`,
`player_state`, `title`, `artist`, `album`, `artwork_base64`). -/
def msgWrites (pfx : String) (m : Msg) : List FieldWrite :=
  match classify (relativeTopic pfx m.topic) with
  | .setArtist =>
    match utf8Decode m.payload with
    | some v => [.wArtist v]
    | none => []
  | .setTitle =>
    match utf8Decode m.payload with
    | some v => [.wTitle v]
    | none => []
  | .setAlbum =>
    match utf8Decode m.payload with
    | some v => [.wAlbum v]
    | none => []
  | .setGenre =>
    match utf8Decode m.payload with
    | some v => [.wGenre v]
    | none => []
  | .setCover =>
    if m.payload ≠ [] then [.wArtwork (some (b64encode m.payload))]
    else [.wArtwork none]
  | .playStart =>
    [.wIsPlaying true, .wPlayerState "playing"]
  | .playEnd =>
    [.wIsPlaying false, .wPlayerState "stopped",
     .wTitle "", .wArtist "", .wAlbum "", .wArtwork none]
  | .pause =>
    [.wIsPlaying false, .wPlayerState "paused"]
  | .setVolume =>
    match utf8Decode m.payload with
    | some t =>
      match pyFloat t with
      | some v => [.wVolume v]
      | none => []
    | none => []
  | .setClientName =>
    match utf8Decode m.payload with
    | some v => [.wClientName v]
    | none => []
  | .activeStart => []
  | .activeEnd =>
    [.wIsPlaying false, .wPlayerState "stopped",
     .wTitle "", .wArtist "", .wAlbum "", .wArtwork none]
  | .ignore => []

/-- A state the HTTP reader thread can observe while one `on_message`
call against `s` is still in progress: the call has executed the
first `k` of its assignments when the read is served. -/
def midCallObservation (pfx : String) (s : Metadata) (m : Msg) (k : Nat) : Metadata :=
  ((msgWrites pfx m).take k).foldl applyWrite s

/-! ## Logging / timing environment

`on_message` also calls the logger, whose output carries a wall-clock
timestamp (`asctime`).  We model one call as the pair of the new state
and the emitted log lines, parametrised by the current time, to state
that the state component never depends on it. -/

/-- One formatted log record (the configured format is
`asctime - name - levelname - message`). -/
def logLine (now : Nat) (level msg : String) : String :=
  toString now ++ " - __main__ - " ++ level ++ " - " ++ msg

/-- `on_message` with its log output: returns the new state and the
log lines it emits, given the current wall-clock time `now`.  A decode
failure in a text branch reaches the outer `except` and logs an error
line; the `volume` branch swallows its `ValueError` silently. -/
def onMessageLogged (now : Nat) (pfx : String) (s : Metadata) (m : Msg) :
    Metadata × List String :=
  let errLine := logLine now "ERROR" ("Error processing message on " ++ m.topic)
  match classify (relativeTopic pfx m.topic) with
  | .setArtist =>
    match utf8Decode m.payload with
    | some v => ({ s with artist := v }, [logLine now "DEBUG" ("Artist: " ++ v)])
    | none => (s, [errLine])
  | .setTitle =>
    match utf8Decode m.payload with
    | some v => ({ s with title := v }, [logLine now "DEBUG" ("Title: " ++ v)])
    | none => (s, [errLine])
  | .setAlbum =>
    match utf8Decode m.payload with
    | some v => ({ s with album := v }, [logLine now "DEBUG" ("Album: " ++ v)])
    | none => (s, [errLine])
  | .setGenre =>
    match utf8Decode m.payload with
    | some v => ({ s with genre := v }, [logLine now "DEBUG" ("Genre: " ++ v)])
    | none => (s, [errLine])
  | .setCover =>
    if m.payload ≠ [] then
      ({ s with artwork_base64 := some (b64encode m.payload) },
       [logLine now "DEBUG" "Received artwork"])
    else
      ({ s with artwork_base64 := none }, [logLine now "DEBUG" "Artwork cleared"])
  | .playStart =>
    ({ s with is_playing := true, player_state := "playing" },
     [logLine now "INFO" "Playback started/resumed"])
  | .playEnd =>
    ({ s with is_playing := false, player_state := "stopped",
              title := "", artist := "", album := "", artwork_base64 := none },
     [logLine now "INFO" "Playback ended"])
  | .pause =>
    ({ s with is_playing := false, player_state := "paused" },
     [logLine now "INFO" "Playback paused"])
  | .setVolume =>
    match utf8Decode m.payload with
    | some t =>
      match pyFloat t with
      | some v => ({ s with volume := v }, [])
      | none => (s, [])
    | none => (s, [])
  | .setClientName =>
    match utf8Decode m.payload with
    | some v => ({ s with client_name := v }, [logLine now "DEBUG" ("Client: " ++ v)])
    | none => (s, [errLine])
  | .activeStart =>
    (s, [logLine now "INFO" "Shairport session started"])
  | .activeEnd =>
    ({ s with is_playing := false, player_state := "stopped",
              title := "", artist := "", album := "", artwork_base64 := none },
     [logLine now "INFO" "Shairport session ended"])
  | .ignore => (s, [])

/-- Run a message sequence with logging, reading the wall clock from
`clock` at each delivery (message number `i` arrives at time
`clock i`). -/
def runLogged (clock : Nat → Nat) (pfx : String) :
    List Msg → Metadata → Nat → Metadata × List String
  | [], s, _ => (s, [])
  | m :: rest, s, i =>
    let p := onMessageLogged (clock i) pfx s m
    let q := runLogged clock pfx rest p.1 (i + 1)
    (q.1, p.2 ++ q.2)

/-! ## The HTTP query path -/

/-- A JSON value, as produced by `jsonify`. -/
inductive JVal where
  | jstr (s : String)
  | jnum (v : PyFloat)
  | jbool (b : Bool)
  | jnull
deriving DecidableEq, Repr

/-- The body `jsonify(metadata)` serialises: the nine keys of the
dict in insertion order, each holding the current field value
(artwork already stored base64-encoded, `null` when absent). -/
def metadataJson (s : Metadata) : List (String × JVal) :=
  [("title", JVal.jstr s.title),
   ("artist", JVal.jstr s.artist),
   ("album", JVal.jstr s.album),
   ("genre", JVal.jstr s.genre),
   ("artwork_base64",
     match s.artwork_base64 with
     | some b => JVal.jstr b
     | none => JVal.jnull),
   ("is_playing", JVal.jbool s.is_playing),
   ("player_state", JVal.jstr s.player_state),
   ("volume", JVal.jnum s.volume),
   ("client_name", JVal.jstr s.client_name)]

/-- The `/metadata` route: HTTP status and JSON body, computed from
the state current at the instant of the call (no cache). -/
def getMetadataRoute (s : Metadata) : Nat × List (String × JVal) :=
  (200, metadataJson s)

/-! ## Helper lemmas -/

theorem b64Val_b64Char : ∀ x < 64, b64Val (b64Char x) = some x := by decide

theorem b64Char_ne_pad : ∀ x < 64, b64Char x ≠ '=' := by decide

theorem b64decodeCore_b64encodeCore (bs : List Nat) (h : ∀ b ∈ bs, b < 256) :
    b64decodeCore (b64encodeCore bs) = some bs := by
  induction bs using b64encodeCore.induct with
  | case1 b1 b2 b3 rest ih =>
    have hb1 : b1 < 256 := h _ (by simp)
    have hb2 : b2 < 256 := h _ (by simp)
    have hb3 : b3 < 256 := h _ (by simp)
    have ih2 := ih fun b hb => h b (by simp [hb])
    simp only [b64encodeCore, b64decodeCore]
    rw [if_neg (fun hpad => b64Char_ne_pad _ (by omega) hpad.2)]
    rw [b64Val_b64Char _ (by omega), b64Val_b64Char _ (by omega),
        b64Val_b64Char _ (by omega), b64Val_b64Char _ (by omega)]
    simp only [ih2, Option.pure_def, Option.bind_eq_bind, Option.some_bind,
               Option.some.injEq, List.cons.injEq, and_true]
    omega
  | case2 b1 b2 =>
    have hb1 : b1 < 256 := h _ (by simp)
    have hb2 : b2 < 256 := h _ (by simp)
    simp only [b64encodeCore, b64decodeCore]
    rw [if_pos ⟨trivial, trivial⟩, if_neg (b64Char_ne_pad _ (by omega))]
    rw [b64Val_b64Char _ (by omega), b64Val_b64Char _ (by omega),
        b64Val_b64Char _ (by omega)]
    simp only [Option.pure_def, Option.bind_eq_bind, Option.some_bind,
               Option.some.injEq, List.cons.injEq, and_true]
    omega
  | case3 b1 =>
    have hb1 : b1 < 256 := h _ (by simp)
    simp only [b64encodeCore, b64decodeCore]
    rw [if_pos ⟨trivial, trivial⟩, if_pos trivial]
    rw [b64Val_b64Char _ (by omega), b64Val_b64Char _ (by omega)]
    simp only [Option.pure_def, Option.bind_eq_bind, Option.some_bind,
               Option.some.injEq, List.cons.injEq, and_true]
    omega
  | case4 => rfl

theorem b64decode_b64encode (bs : List Nat) (h : ∀ b ∈ bs, b < 256) :
    b64decode (b64encode bs) = some bs :=
  b64decodeCore_b64encodeCore bs h

theorem onMessage_eq_writes (pfx : String) (s : Metadata) (m : Msg) :
    onMessage pfx s m = (msgWrites pfx m).foldl applyWrite s := by
  cases hc : classify (relativeTopic pfx m.topic) <;>
    simp only [onMessage, msgWrites, hc] <;> try rfl
  case setCover => split <;> rfl
  case setVolume =>
    rcases utf8Decode m.payload with _ | t
    · rfl
    · rcases hv : pyFloat t with _ | v <;> simp [hv, applyWrite]
  all_goals cases utf8Decode m.payload <;> rfl

theorem onMessageLogged_fst (now : Nat) (pfx : String) (s : Metadata) (m : Msg) :
    (onMessageLogged now pfx s m).1 = onMessage pfx s m := by
  cases hc : classify (relativeTopic pfx m.topic) <;>
    simp only [onMessageLogged, onMessage, hc] <;> try rfl
  case setCover => split <;> rfl
  case setVolume =>
    rcases utf8Decode m.payload with _ | t
    · rfl
    · rcases hv : pyFloat t with _ | v <;> simp [hv]
  all_goals cases utf8Decode m.payload <;> rfl

theorem runMsgs_append (pfx : String) (l1 l2 : List Msg) (s : Metadata) :
    runMsgs pfx (l1 ++ l2) s = runMsgs pfx l2 (runMsgs pfx l1 s) := by
  simp [runMsgs, List.foldl_append]

/-- The consistency predicate of the spec:
`is_playing` holds exactly when `player_state` is `"playing"`. -/
def playConsistent (s : Metadata) : Prop :=
  s.is_playing = true ↔ s.player_state = "playing"

theorem playConsistent_step (pfx : String) (s : Metadata) (m : Msg)
    (h : playConsistent s) : playConsistent (onMessage pfx s m) := by
  cases hc : classify (relativeTopic pfx m.topic) <;>
    simp only [onMessage, hc] <;> try exact h
  case setCover => split <;> simpa [playConsistent] using h
  case playStart => simp [playConsistent]
  case playEnd => simp [playConsistent]
  case pause => simp [playConsistent]
  case activeEnd => simp [playConsistent]
  case setVolume =>
    rcases utf8Decode m.payload with _ | t
    · exact h
    · rcases hv : pyFloat t with _ | v <;> simp [hv] <;>
        simpa [playConsistent] using h
  all_goals cases utf8Decode m.payload <;> simpa [playConsistent] using h

theorem playConsistent_run (pfx : String) (msgs : List Msg) :
    ∀ s, playConsistent s → playConsistent (runMsgs pfx msgs s) := by
  induction msgs with
  | nil => exact fun s h => h
  | cons m rest ih => exact fun s h => ih _ (playConsistent_step pfx s m h)

/-- The topics whose action stops playback and clears track metadata. -/
def StopMsg (pfx : String) (m : Msg) : Prop :=
  relativeTopic pfx m.topic = "play_end" ∨
  relativeTopic pfx m.topic = "play_flush" ∨
  relativeTopic pfx m.topic = "active_end"

/-- The cleared stopped state required after a stop action. -/
def ClearedStopped (s : Metadata) : Prop :=
  s.title = "" ∧ s.artist = "" ∧ s.album = "" ∧ s.artwork_base64 = none ∧
  s.is_playing = false ∧ s.player_state = "stopped"

theorem classify_of_stop (pfx : String) (m : Msg) (h : StopMsg pfx m) :
    classify (relativeTopic pfx m.topic) = Action.playEnd ∨
    classify (relativeTopic pfx m.topic) = Action.activeEnd := by
  rcases h with h | h | h <;> rw [h] <;> decide

/-! ## Claim theorems -/

/-- C1: after any message whose relative topic is `play_end`,
`play_flush`, or `active_end` — applied to an arbitrary state or as
the last of any sequence started from the default state — the state
has empty `title`, `artist`, `album`, absent artwork, `is_playing`
false and `player_state` `"stopped"`; the clearing happens in that
same single transition. -/
theorem stop_clears_metadata :
    (∀ pfx s m, StopMsg pfx m → ClearedStopped (onMessage pfx s m)) ∧
    (∀ pfx msgs m, StopMsg pfx m →
      ClearedStopped (runMsgs pfx (msgs ++ [m]) metadataInit)) := by
  have h1 : ∀ pfx s m, StopMsg pfx m → ClearedStopped (onMessage pfx s m) := by
    intro pfx s m h
    rcases classify_of_stop pfx m h with hc | hc <;>
      simp [onMessage, hc, ClearedStopped]
  refine ⟨h1, fun pfx msgs m h => ?_⟩
  rw [runMsgs_append]
  exact h1 pfx (runMsgs pfx msgs metadataInit) m h

/-- Witness for C1 at a concrete fully-populated state and message. -/
theorem stop_clears_metadata_witness :
    ClearedStopped (onMessage "shairport-sync"
      { title := "Song A", artist := "Band B", album := "Album C",
        genre := "rock", artwork_base64 := some "QQ==", is_playing := true,
        player_state := "playing", volume := PyFloat.num 1, client_name := "ipad" }
      ⟨"shairport-sync/play_end", []⟩) :=
  stop_clears_metadata.1 "shairport-sync" _ _ (by unfold StopMsg; decide)

/-- C2: `is_playing == (player_state == "playing")` holds initially
and is preserved by every handled event, hence holds in every state
produced by a message sequence from the default state. -/
theorem isPlaying_iff_playing :
    playConsistent metadataInit ∧
    (∀ pfx s m, playConsistent s → playConsistent (onMessage pfx s m)) ∧
    (∀ pfx msgs, playConsistent (runMsgs pfx msgs metadataInit)) := by
  have h0 : playConsistent metadataInit := by simp [playConsistent, metadataInit]
  exact ⟨h0, fun pfx s m h => playConsistent_step pfx s m h,
         fun pfx msgs => playConsistent_run pfx msgs metadataInit h0⟩

/-- Witness for C2 at a concrete message. -/
theorem isPlaying_iff_playing_witness :
    playConsistent (onMessage "shairport-sync" metadataInit
      ⟨"shairport-sync/play_start", []⟩) :=
  isPlaying_iff_playing.2.1 "shairport-sync" metadataInit
    ⟨"shairport-sync/play_start", []⟩ (by unfold playConsistent; decide)

/-- C7: applying a `pause` message twice in a row yields exactly the
state of applying it once. -/
theorem pause_idempotent (pfx : String) (s : Metadata) (m : Msg)
    (h : relativeTopic pfx m.topic = "pause") :
    onMessage pfx (onMessage pfx s m) m = onMessage pfx s m := by
  have hc : classify (relativeTopic pfx m.topic) = Action.pause := by
    rw [h]; decide
  simp [onMessage, hc]

/-- Witness for C7 at a concrete message. -/
theorem pause_idempotent_witness :
    onMessage "shairport-sync"
        (onMessage "shairport-sync" metadataInit ⟨"shairport-sync/pause", []⟩)
        ⟨"shairport-sync/pause", []⟩
      = onMessage "shairport-sync" metadataInit ⟨"shairport-sync/pause", []⟩ :=
  pause_idempotent "shairport-sync" metadataInit
    ⟨"shairport-sync/pause", []⟩ (by decide)

set_option maxHeartbeats 1000000 in
theorem classify_inv (r : String) :
    (classify r = Action.setArtist → r = "artist") ∧
    (classify r = Action.setTitle → r = "title") ∧
    (classify r = Action.setAlbum → r = "album") ∧
    (classify r = Action.setGenre → r = "genre") ∧
    (classify r = Action.setCover → r = "cover" ∨ r = "artwork") ∧
    (classify r = Action.playStart → r = "play_start" ∨ r = "play_resume") ∧
    (classify r = Action.playEnd → r = "play_end" ∨ r = "play_flush") ∧
    (classify r = Action.pause → r = "pause") ∧
    (classify r = Action.setVolume → r = "volume") ∧
    (classify r = Action.setClientName → r = "client_name") ∧
    (classify r = Action.activeStart → r = "active_start") ∧
    (classify r = Action.activeEnd → r = "active_end") := by
  unfold classify
  split_ifs with h1 h2 h3 h4 h5 h6 h7 h8 h9 h10 h11 h12 <;>
    refine ⟨?_, ?_, ?_, ?_, ?_, ?_, ?_, ?_, ?_, ?_, ?_, ?_⟩ <;> intro heq <;>
    first
    | exact absurd heq (by decide)
    | assumption

/-- The relative topics the `if`/`elif` chain recognises. -/
def recognizedTopics : List String :=
  ["artist", "title", "album", "genre", "cover", "artwork", "play_start",
   "play_resume", "play_end", "play_flush", "pause", "volume", "client_name",
   "active_start", "active_end"]

/-- C4: every field not addressed by an event is unchanged by it, and
an event with an unrecognized relative topic changes nothing. -/
theorem untouched_fields_preserved (pfx : String) (s : Metadata) (m : Msg) :
    (relativeTopic pfx m.topic ∉ recognizedTopics → onMessage pfx s m = s) ∧
    (relativeTopic pfx m.topic ∉
        (["title", "play_end", "play_flush", "active_end"] : List String) →
      (onMessage pfx s m).title = s.title) ∧
    (relativeTopic pfx m.topic ∉
        (["artist", "play_end", "play_flush", "active_end"] : List String) →
      (onMessage pfx s m).artist = s.artist) ∧
    (relativeTopic pfx m.topic ∉
        (["album", "play_end", "play_flush", "active_end"] : List String) →
      (onMessage pfx s m).album = s.album) ∧
    (relativeTopic pfx m.topic ≠ "genre" →
      (onMessage pfx s m).genre = s.genre) ∧
    (relativeTopic pfx m.topic ∉
        (["cover", "artwork", "play_end", "play_flush", "active_end"] : List String) →
      (onMessage pfx s m).artwork_base64 = s.artwork_base64) ∧
    (relativeTopic pfx m.topic ∉
        (["play_start", "play_resume", "play_end", "play_flush", "pause",
          "active_end"] : List String) →
      (onMessage pfx s m).is_playing = s.is_playing ∧
      (onMessage pfx s m).player_state = s.player_state) ∧
    (relativeTopic pfx m.topic ≠ "volume" →
      (onMessage pfx s m).volume = s.volume) ∧
    (relativeTopic pfx m.topic ≠ "client_name" →
      (onMessage pfx s m).client_name = s.client_name) := by
  obtain ⟨i1, i2, i3, i4, i5, i6, i7, i8, i9, i10, i11, i12⟩ :=
    classify_inv (relativeTopic pfx m.topic)
  cases hc : classify (relativeTopic pfx m.topic) <;>
    simp only [onMessage, hc] <;>
    refine ⟨?_, ?_, ?_, ?_, ?_, ?_, ?_, ?_, ?_⟩ <;> try intro h
  all_goals try trivial
  all_goals try exact ⟨trivial, trivial⟩
  all_goals try exact ⟨rfl, rfl⟩
  all_goals try rfl
  all_goals try (cases utf8Decode m.payload <;> first | rfl | exact ⟨rfl, rfl⟩)
  all_goals
    try (rcases utf8Decode m.payload with _ | t
         · first | rfl | exact ⟨rfl, rfl⟩
         · rcases hv : pyFloat t with _ | v <;> simp [hv])
  all_goals try (split <;> first | rfl | exact ⟨rfl, rfl⟩)
  all_goals
    first
    | exact absurd (i8 hc) h
    | exact absurd (i9 hc) h
    | exact absurd (i10 hc) h
    | exact absurd (i4 hc) h
    | exact absurd (by rw [i1 hc]; decide) h
    | exact absurd (by rw [i2 hc]; decide) h
    | exact absurd (by rw [i3 hc]; decide) h
    | exact absurd (by rw [i4 hc]; decide) h
    | exact absurd (by rw [i8 hc]; decide) h
    | exact absurd (by rw [i9 hc]; decide) h
    | exact absurd (by rw [i10 hc]; decide) h
    | exact absurd (by rw [i11 hc]; decide) h
    | exact absurd (by rw [i12 hc]; decide) h
    | exact (i5 hc).elim (fun hr => absurd (by rw [hr]; decide) h)
        (fun hr => absurd (by rw [hr]; decide) h)
    | exact (i6 hc).elim (fun hr => absurd (by rw [hr]; decide) h)
        (fun hr => absurd (by rw [hr]; decide) h)
    | exact (i7 hc).elim (fun hr => absurd (by rw [hr]; decide) h)
        (fun hr => absurd (by rw [hr]; decide) h)

/-- Witness for C4: a `volume` event preserves an earlier title, and a
message with an unrecognized topic is a no-op. -/
theorem untouched_fields_preserved_witness :
    (onMessage "shairport-sync"
        (onMessage "shairport-sync" metadataInit ⟨"shairport-sync/title", [88]⟩)
        ⟨"shairport-sync/volume", [53, 48]⟩).title = "X" ∧
    onMessage "shairport-sync" metadataInit ⟨"shairport-sync/bogus", [1]⟩
      = metadataInit := by
  constructor
  · have h := (untouched_fields_preserved "shairport-sync"
      (onMessage "shairport-sync" metadataInit ⟨"shairport-sync/title", [88]⟩)
      ⟨"shairport-sync/volume", [53, 48]⟩).2.1
    rw [h (by decide)]
    decide
  · exact (untouched_fields_preserved "shairport-sync" metadataInit
      ⟨"shairport-sync/bogus", [1]⟩).1 (by decide)

theorem isPrefixOf_append_left (l t : List Char) :
    l.isPrefixOf (l ++ t) = true := by
  induction l with
  | nil => simp
  | cons a as ih => simp [List.isPrefixOf_cons₂, ih]

/-- C6: a topic of the form `prefix/rest` is classified by `rest`
(the prefix segment and its separator character are stripped), and a
topic that does not start with the prefix is used unchanged. -/
theorem relativeTopic_spec :
    (∀ pfx rest : String, relativeTopic pfx (pfx ++ "/" ++ rest) = rest) ∧
    (∀ pfx topic : String, pfx.data.isPrefixOf topic.data = true →
      relativeTopic pfx topic = String.mk (topic.data.drop (pfx.data.length + 1))) ∧
    (∀ pfx topic : String, pfx.data.isPrefixOf topic.data = false →
      relativeTopic pfx topic = topic) := by
  refine ⟨fun pfx rest => ?_, fun pfx topic h => ?_, fun pfx topic h => ?_⟩
  · unfold relativeTopic
    have hdata : (pfx ++ "/" ++ rest).data = pfx.data ++ '/' :: rest.data := by
      simp [String.data_append]
    rw [hdata, if_pos (isPrefixOf_append_left pfx.data ('/' :: rest.data))]
    have hsplit : pfx.data ++ '/' :: rest.data = (pfx.data ++ ['/']) ++ rest.data := by
      simp
    rw [hsplit, List.drop_left' (by simp)]
  · unfold relativeTopic
    rw [if_pos h]
  · unfold relativeTopic
    rw [if_neg (by simp [h])]

/-- Witness for C6 at concrete topics. -/
theorem relativeTopic_spec_witness :
    relativeTopic "shairport-sync" ("shairport-sync" ++ "/" ++ "title") = "title" ∧
    relativeTopic "shairport-sync" "other/title" = "other/title" :=
  ⟨relativeTopic_spec.1 "shairport-sync" "title",
   relativeTopic_spec.2.2 "shairport-sync" "other/title" (by decide)⟩

/-- C9: a non-empty `cover`/`artwork` payload is stored base64-encoded
in the same event, and decoding the stored string returns exactly the
original payload bytes. -/
theorem artwork_roundtrip (pfx : String) (s : Metadata) (m : Msg)
    (htopic : relativeTopic pfx m.topic = "cover" ∨
              relativeTopic pfx m.topic = "artwork")
    (hne : m.payload ≠ [])
    (hbytes : ∀ b ∈ m.payload, b < 256) :
    (onMessage pfx s m).artwork_base64 = some (b64encode m.payload) ∧
    b64decode (b64encode m.payload) = some m.payload := by
  have hc : classify (relativeTopic pfx m.topic) = Action.setCover := by
    rcases htopic with h | h <;> rw [h] <;> decide
  exact ⟨by simp [onMessage, hc, hne], b64decode_b64encode _ hbytes⟩

/-- Witness for C9 at a concrete payload. -/
theorem artwork_roundtrip_witness :
    (onMessage "shairport-sync" metadataInit
        ⟨"shairport-sync/cover", [1, 2, 3]⟩).artwork_base64
        = some (b64encode [1, 2, 3]) ∧
    b64decode (b64encode [1, 2, 3]) = some [1, 2, 3] :=
  artwork_roundtrip "shairport-sync" metadataInit
    ⟨"shairport-sync/cover", [1, 2, 3]⟩ (Or.inl (by decide))
    (by decide) (by decide)

/-- C10: the state produced by a message sequence is a function of the
messages and the prefix alone: running with logging under any two wall
clocks yields the same state, equal to the pure fold. -/
theorem run_deterministic :
    ∀ (clock1 clock2 : Nat → Nat) (pfx : String) (msgs : List Msg)
      (s : Metadata) (i : Nat),
      (runLogged clock1 pfx msgs s i).1 = runMsgs pfx msgs s ∧
      (runLogged clock1 pfx msgs s i).1 = (runLogged clock2 pfx msgs s i).1 := by
  have key : ∀ (clock : Nat → Nat) (pfx : String) (msgs : List Msg)
      (s : Metadata) (i : Nat),
      (runLogged clock pfx msgs s i).1 = runMsgs pfx msgs s := by
    intro clock pfx msgs
    induction msgs with
    | nil => intro s i; rfl
    | cons m rest ih =>
      intro s i
      calc (runLogged clock pfx (m :: rest) s i).1
          = (runLogged clock pfx rest (onMessageLogged (clock i) pfx s m).1
              (i + 1)).1 := rfl
        _ = runMsgs pfx rest (onMessageLogged (clock i) pfx s m).1 := ih _ _
        _ = runMsgs pfx rest (onMessage pfx s m) := by rw [onMessageLogged_fst]
        _ = runMsgs pfx (m :: rest) s := rfl
  intro c1 c2 pfx msgs s i
  exact ⟨key c1 pfx msgs s i, by rw [key c1 pfx msgs s i, key c2 pfx msgs s i]⟩

/-- C5: a malformed event — a text-field topic whose payload is not
valid UTF-8, or a `volume` payload that does not parse as a float —
leaves the state unchanged and drops out of the fold, so subsequent
messages are processed exactly as if it had never arrived. -/
theorem malformed_event_no_effect (pfx : String) (m : Msg)
    (h : (relativeTopic pfx m.topic ∈
            (["artist", "title", "album", "genre", "client_name"] : List String) ∧
          utf8Decode m.payload = none) ∨
         (relativeTopic pfx m.topic = "volume" ∧
          ∀ t, utf8Decode m.payload = some t → pyFloat t = none)) :
    (∀ s, onMessage pfx s m = s) ∧
    (∀ pre post, runMsgs pfx (pre ++ m :: post) metadataInit =
                 runMsgs pfx (pre ++ post) metadataInit) := by
  have hstep : ∀ s, onMessage pfx s m = s := by
    intro s
    rcases h with ⟨hmem, hdec⟩ | ⟨hvol, hparse⟩
    · simp only [List.mem_cons, List.not_mem_nil, or_false] at hmem
      rcases hmem with h1 | h1 | h1 | h1 | h1
      · have hc : classify (relativeTopic pfx m.topic) = Action.setArtist := by
          rw [h1]; decide
        simp [onMessage, hc, hdec]
      · have hc : classify (relativeTopic pfx m.topic) = Action.setTitle := by
          rw [h1]; decide
        simp [onMessage, hc, hdec]
      · have hc : classify (relativeTopic pfx m.topic) = Action.setAlbum := by
          rw [h1]; decide
        simp [onMessage, hc, hdec]
      · have hc : classify (relativeTopic pfx m.topic) = Action.setGenre := by
          rw [h1]; decide
        simp [onMessage, hc, hdec]
      · have hc : classify (relativeTopic pfx m.topic) = Action.setClientName := by
          rw [h1]; decide
        simp [onMessage, hc, hdec]
    · have hc : classify (relativeTopic pfx m.topic) = Action.setVolume := by
        rw [hvol]; decide
      simp only [onMessage, hc]
      rcases hu : utf8Decode m.payload with _ | t
      · rfl
      · simp [hparse t hu]
  refine ⟨hstep, fun pre post => ?_⟩
  rw [runMsgs_append, runMsgs_append]
  rw [show runMsgs pfx (m :: post) (runMsgs pfx pre metadataInit)
        = runMsgs pfx post (onMessage pfx (runMsgs pfx pre metadataInit) m)
      from rfl]
  rw [hstep]

/-- Witness for C5: a non-numeric volume payload and an invalid UTF-8
title payload are both no-ops. -/
theorem malformed_event_no_effect_witness :
    onMessage "shairport-sync" metadataInit
      ⟨"shairport-sync/volume", [97, 98, 99]⟩ = metadataInit ∧
    onMessage "shairport-sync" metadataInit
      ⟨"shairport-sync/title", [255]⟩ = metadataInit := by
  constructor
  · refine (malformed_event_no_effect "shairport-sync"
      ⟨"shairport-sync/volume", [97, 98, 99]⟩ (Or.inr ⟨by decide, ?_⟩)).1
      metadataInit
    intro t ht
    have hd : utf8Decode [97, 98, 99] = some "abc" := by decide
    rw [hd] at ht
    cases ht
    decide
  · exact (malformed_event_no_effect "shairport-sync"
      ⟨"shairport-sync/title", [255]⟩ (Or.inl ⟨by decide, by decide⟩)).1
      metadataInit

/-- The three values the source ever assigns to `player_state`. -/
def PsOK (s : Metadata) : Prop :=
  s.player_state = "stopped" ∨ s.player_state = "playing" ∨
  s.player_state = "paused"

theorem psOK_step (pfx : String) (s : Metadata) (m : Msg) (h : PsOK s) :
    PsOK (onMessage pfx s m) := by
  cases hc : classify (relativeTopic pfx m.topic) <;>
    simp only [onMessage, hc] <;> try exact h
  case setCover => split <;> exact h
  case playStart => exact Or.inr (Or.inl rfl)
  case playEnd => exact Or.inl rfl
  case pause => exact Or.inr (Or.inr rfl)
  case activeEnd => exact Or.inl rfl
  case setVolume =>
    rcases utf8Decode m.payload with _ | t
    · exact h
    · rcases hv : pyFloat t with _ | v <;> simp only [hv] <;> exact h
  all_goals cases utf8Decode m.payload <;> exact h

theorem psOK_run (pfx : String) (msgs : List Msg) :
    ∀ s, PsOK s → PsOK (runMsgs pfx msgs s) := by
  induction msgs with
  | nil => exact fun s h => h
  | cons m rest ih => exact fun s h => ih _ (psOK_step pfx s m h)

/-- The nine keys of the JSON body, in dict insertion order. -/
def metadataKeys : List String :=
  ["title", "artist", "album", "genre", "artwork_base64", "is_playing",
   "player_state", "volume", "client_name"]

/-- C8: for every reachable state, `/metadata` answers 200 with a JSON
object holding exactly the nine keys, each serialised from the state
at the instant of the call: strings for the four text fields, the
stored base64 string or `null` for artwork, a boolean for
`is_playing`, one of the three player states, a number for `volume`,
and a string for `client_name`. -/
theorem metadata_route_contract (s : Metadata) (hs : Reachable s) :
    getMetadataRoute s = (200, metadataJson s) ∧
    (metadataJson s).map Prod.fst = metadataKeys ∧
    (metadataJson s).lookup "title" = some (JVal.jstr s.title) ∧
    (metadataJson s).lookup "artist" = some (JVal.jstr s.artist) ∧
    (metadataJson s).lookup "album" = some (JVal.jstr s.album) ∧
    (metadataJson s).lookup "genre" = some (JVal.jstr s.genre) ∧
    ((s.artwork_base64 = none ∧
        (metadataJson s).lookup "artwork_base64" = some JVal.jnull) ∨
     (∃ b, s.artwork_base64 = some b ∧
        (metadataJson s).lookup "artwork_base64" = some (JVal.jstr b))) ∧
    (metadataJson s).lookup "is_playing" = some (JVal.jbool s.is_playing) ∧
    (metadataJson s).lookup "player_state" = some (JVal.jstr s.player_state) ∧
    PsOK s ∧
    (metadataJson s).lookup "volume" = some (JVal.jnum s.volume) ∧
    (metadataJson s).lookup "client_name" = some (JVal.jstr s.client_name) := by
  obtain ⟨pfx, msgs, rfl⟩ := hs
  refine ⟨rfl, rfl, rfl, rfl, rfl, rfl, ?_, rfl, rfl,
          psOK_run pfx msgs metadataInit (Or.inl rfl), rfl, rfl⟩
  rcases ha : (runMsgs pfx msgs metadataInit).artwork_base64 with _ | b
  · exact Or.inl ⟨rfl, by simp [metadataJson, List.lookup, ha]⟩
  · exact Or.inr ⟨b, rfl, by simp [metadataJson, List.lookup, ha]⟩

/-- Witness for C8 at the (reachable) initial state. -/
theorem metadata_route_contract_witness :
    getMetadataRoute metadataInit = (200, metadataJson metadataInit) ∧
    (metadataJson metadataInit).map Prod.fst = metadataKeys ∧
    PsOK metadataInit := by
  have h := metadata_route_contract metadataInit ⟨"shairport-sync", [], rfl⟩
  exact ⟨h.1, h.2.1, h.2.2.2.2.2.2.2.2.2.1⟩

/-- C3 fails on the code: `on_message` takes no lock around its six
separate dict assignments, so the HTTP thread can serve `/metadata`
between the `player_state` write and the `title` clear of a
`play_end`.  Concretely: after a complete `title` event (payload
`"X"`), a `play_end` interrupted after its first two writes leaves an
observable state with `player_state = "stopped"` and `title = "X"`;
completing all its writes agrees with the atomic transition, so the
torn state is strictly intermediate. -/
theorem torn_read_observable :
    (midCallObservation "shairport-sync"
        (onMessage "shairport-sync" metadataInit ⟨"shairport-sync/title", [88]⟩)
        ⟨"shairport-sync/play_end", []⟩ 2).player_state = "stopped" ∧
    (midCallObservation "shairport-sync"
        (onMessage "shairport-sync" metadataInit ⟨"shairport-sync/title", [88]⟩)
        ⟨"shairport-sync/play_end", []⟩ 2).title = "X" ∧
    (midCallObservation "shairport-sync"
        (onMessage "shairport-sync" metadataInit ⟨"shairport-sync/title", [88]⟩)
        ⟨"shairport-sync/play_end", []⟩ 2).is_playing = false ∧
    midCallObservation "shairport-sync"
        (onMessage "shairport-sync" metadataInit ⟨"shairport-sync/title", [88]⟩)
        ⟨"shairport-sync/play_end", []⟩
        (msgWrites "shairport-sync" ⟨"shairport-sync/play_end", []⟩).length
      = onMessage "shairport-sync"
          (onMessage "shairport-sync" metadataInit ⟨"shairport-sync/title", [88]⟩)
          ⟨"shairport-sync/play_end", []⟩ := by
  refine ⟨by decide, by decide, by decide, ?_⟩
  unfold midCallObservation
  rw [List.take_length]
  exact (onMessage_eq_writes "shairport-sync" _ _).symm

end Shairport